import Mathlib

/-!
Verification development for the PortfolioAnalyzer repository.

The Python sources (`data_processor.py`, `portfolio_analyzer.py`) are shallowly
embedded below.  Python strings are modelled as `List Char` (`Str`), monetary
amounts and share quantities as `ℚ`, dates as `Nat` (only their ordering
matters downstream), and the closed set of action strings
(`'Buy'`, `'Sell'`, `'Dividend'`, `'Dividend_Withdrawal'`, `'Commission'`,
`'Cash_In'`, `'Cash_Out'`) as the enumeration `TxAction`.  Fallible Python code
(raised `ValueError`s) is modelled with `Option`/`Except`.
-/

/-! ## String primitives (Python `str` operations over `List Char`) -/

abbrev Str := List Char

/-- Python `sub in s` (substring containment). -/
def containsSub (sub : Str) : Str → Bool
  | [] => sub.isPrefixOf ([] : Str)
  | c :: rest => sub.isPrefixOf (c :: rest) || containsSub sub rest

/-- Worker for `splitOnStr`; the fuel argument only bounds recursion depth and
is always supplied as the length of the string, which suffices because every
step consumes at least one character. -/
def splitOnFuel (sep : Str) : Nat → Str → Str → List Str
  | _, [], acc => [acc.reverse]
  | 0, s, acc => [acc.reverse ++ s]
  | fuel + 1, c :: rest, acc =>
    if sep ≠ [] ∧ sep.isPrefixOf (c :: rest) then
      acc.reverse :: splitOnFuel sep fuel ((c :: rest).drop sep.length) []
    else
      splitOnFuel sep fuel rest (c :: acc)

/-- Python `s.split(sep)` for a non-empty separator: split on non-overlapping
occurrences of `sep`, left to right. -/
def splitOnStr (sep s : Str) : List Str := splitOnFuel sep s.length s []

/-- Python `s.strip()`: remove leading and trailing whitespace. -/
def pyStrip (s : Str) : Str :=
  ((s.dropWhile Char.isWhitespace).reverse.dropWhile Char.isWhitespace).reverse

def allDigits (s : Str) : Bool := s.all Char.isDigit

def digitsVal (s : Str) : Nat := s.foldl (fun a c => a * 10 + (c.toNat - 48)) 0

/-- Python `s.upper()` (ASCII letters, which is all the code compares). -/
def toUpperStr (s : Str) : Str := s.map Char.toUpper

/-- Python `int(s)`: optional sign followed by digits, surrounding whitespace
allowed. -/
def pyInt (s : Str) : Option Int :=
  match pyStrip s with
  | '-' :: ds => if ds ≠ [] ∧ allDigits ds then some (-(digitsVal ds : Int)) else none
  | '+' :: ds => if ds ≠ [] ∧ allDigits ds then some ((digitsVal ds : Int)) else none
  | ds => if ds ≠ [] ∧ allDigits ds then some ((digitsVal ds : Int)) else none

/-- A scaled decimal: `(m, e)` denotes the rational `m / 10 ^ e`.  Keeping the
parse result in this integer form lets concrete parses evaluate by `decide`. -/
abbrev ScaledDec := Int × Nat

def ScaledDec.toRat (d : ScaledDec) : ℚ := (d.1 : ℚ) / (10 : ℚ) ^ d.2

/-- Digits with at most one `'.'`, at least one digit overall. -/
def parseDecimalCore (cs : Str) : Option ScaledDec :=
  let intPart := cs.takeWhile (fun c => c ≠ '.')
  match cs.dropWhile (fun c => c ≠ '.') with
  | [] =>
    if intPart ≠ [] ∧ allDigits intPart then some ((digitsVal intPart : Int), 0) else none
  | _ :: frac =>
    if frac.contains '.' then none
    else if (intPart ≠ [] ∨ frac ≠ []) ∧ allDigits intPart ∧ allDigits frac then
      some ((digitsVal intPart * 10 ^ frac.length + digitsVal frac : Nat), frac.length)
    else none

/-- Python `float(s)` restricted to plain decimal notation (sign, digits,
optional decimal point), which is the shape of every numeric field the code
parses.  Surrounding whitespace is allowed, as in Python. -/
def pyFloat (s : Str) : Option ScaledDec :=
  match pyStrip s with
  | '-' :: cs => (parseDecimalCore cs).map (fun d => (-d.1, d.2))
  | '+' :: cs => parseDecimalCore cs
  | cs => parseDecimalCore cs


/-! ## CONS sub-parser (`DataProcessor._parse_cons_transaction`) -/

/-- The purely textual stage of `_parse_cons_transaction`: split the
MarketName on the single `CONS` token, extract the stock name, the
`<qty>@<price>` field (the part of the transaction details before any space),
and split it on the first `@`.  Returns `(stock_name, quantity_str,
price_str)`, or `none` on any of the textual failure conditions. -/
def consFields (marketName : Str) : Option (Str × Str × Str) :=
  match splitOnStr "CONS".data marketName with
  | [left, right] =>
    let stockName := pyStrip left
    let details := pyStrip right
    if stockName = [] then none
    else if ¬ details.contains '@' then none
    else
      let qp := if details.contains ' ' then details.takeWhile (fun c => c ≠ ' ') else details
      if ¬ qp.contains '@' then none
      else
        some (stockName, qp.takeWhile (fun c => c ≠ '@'),
          (qp.dropWhile (fun c => c ≠ '@')).drop 1)
  | _ => none

/-- The parsed-and-scaled stage of `_parse_cons_transaction`, before
reconciliation: quantity must parse as a positive integer, the price token as
a float which is then divided by 100 unconditionally, and the scaled price
must be positive. -/
def parseConsCore (marketName : Str) : Option (Str × Int × ℚ) :=
  match consFields marketName with
  | none => none
  | some (stockName, quantityStr, priceStr) =>
    match pyInt quantityStr with
    | none => none
    | some quantity =>
      if quantity ≤ 0 then none
      else
        match pyFloat (pyStrip priceStr) with
        | none => none
        | some priceValue =>
          let unitPrice := priceValue.toRat / 100
          if unitPrice ≤ 0 then none else some (stockName, quantity, unitPrice)

structure ConsInfo where
  stock_name : Str
  quantity : Int
  unit_price : ℚ
  /-- `true` exactly when the reconciliation branch fired (the code emits a
  non-fatal `st.warning` there). -/
  reconciled : Bool
deriving DecidableEq

/-- `_parse_cons_transaction`: after the core parse, reconcile
`quantity * unit_price` against `|PL Amount|` with absolute tolerance `0.02`;
on mismatch recompute `unit_price = |PL Amount| / quantity` (non-fatally)
instead of failing. -/
def parseConsTransaction (marketName : Str) (plAmount : ℚ) : Option ConsInfo :=
  match parseConsCore marketName with
  | none => none
  | some (stockName, quantity, unitPrice) =>
    let calculatedTotal : ℚ := (quantity : ℚ) * unitPrice
    let plAmountAbs : ℚ := |plAmount|
    if |calculatedTotal - plAmountAbs| > 2 / 100 then
      some ⟨stockName, quantity, plAmountAbs / (quantity : ℚ), true⟩
    else
      some ⟨stockName, quantity, unitPrice, false⟩


/-! ## Row classifier (`DataProcessor._transform_to_standard_format`)

The classifier emits dict rows whose `action` field is drawn from a closed set
of seven string literals; we model that field as the enumeration `TxAction`
(`_clean_data_types`'s title-casing maps each of these strings to itself). -/

inductive TxAction where
  | Buy | Sell | Dividend | Dividend_Withdrawal | Commission | Cash_In | Cash_Out
deriving DecidableEq

/-- One raw CSV row as seen by `_transform_to_standard_format`.  `none` models
a null (`pd.isna`) cell; `PL Amount` is carried as raw text and parsed by the
classifier exactly where the Python code calls `float`. -/
structure RawRow where
  textDate : Option Str
  summary : Option Str
  marketName : Option Str
  transactionType : Option Str
  plAmount : Option Str
deriving DecidableEq

/-- A normalized transaction as produced by the classifier (one output dict
row). -/
structure StdTx where
  date : Str
  symbol : Str
  action : TxAction
  quantity : ℚ
  price : ℚ
deriving DecidableEq

/-- The distinct `ValueError`s `_transform_to_standard_format` can raise,
with the data each message interpolates. -/
inductive TransformError where
  | nullField (rowIndex : Nat) (field : Str)
  | summaryDefaultFloatError (rowIndex : Nat) (plRaw : Str)
  | plNotNumeric (rowIndex : Nat) (plRaw : Str)
  | invalidTransactionType (rowIndex : Nat) (found : Str)
  | emptyDividendStock (rowIndex : Nat) (marketName : Str)
  | consParseError (rowIndex : Nat) (marketName : Str)
  | unknownFormat (rowIndex : Nat) (marketName : Str) (summary : Str)
deriving DecidableEq

/-- The 1-based row index every raised error message carries. -/
def TransformError.rowIndex : TransformError → Nat
  | .nullField i _ => i
  | .summaryDefaultFloatError i _ => i
  | .plNotNumeric i _ => i
  | .invalidTransactionType i _ => i
  | .emptyDividendStock i _ => i
  | .consParseError i _ => i
  | .unknownFormat i _ _ => i

/-- The summary-defaulting step: an empty `Summary` on a `WITH` row with
negative PL Amount becomes `'Share Dealing Commissions'`; the `float` call in
that check can itself fail, which `none` models.  Mirrors lines 106-112 of
`data_processor.py` (the `'WITH'` comparison there uses the unstripped
transaction type). -/
def defaultSummary (summaryOpt : Option Str) (ttypeRaw plRaw : Str) : Option Str :=
  let onEmpty : Option Str :=
    if ttypeRaw = "WITH".data then
      match pyFloat plRaw with
      | none => none
      | some v => some (if v.toRat < 0 then "Share Dealing Commissions".data else [])
    else some []
  match summaryOpt with
  | none => onEmpty
  | some s => if s = [] then onEmpty else some (pyStrip s)

/-- The ordered rule chain of `_transform_to_standard_format` (lines 135-231),
applied after the null checks, summary defaulting, stripping, PL parse and
transaction-type validation: `summary`, `ttype`, `market` and `txDate` are the
processed field values and `pl` the parsed PL Amount. -/
def transformRowBody (index : Nat) (summary ttype market txDate : Str) (pl : ℚ) :
    Except TransformError StdTx :=
  if containsSub "Card payment".data market then
    .ok ⟨txDate, "CASH_DEPOSIT".data, .Cash_In, 1, |pl|⟩
  else if containsSub "Returned to card".data market then
    .ok ⟨txDate, "CASH_WITHDRAWAL".data, .Cash_Out, 1, |pl|⟩
  else if containsSub "DIVIDEND".data market then
    let stockName := pyStrip ((splitOnStr "DIVIDEND".data market).headD [])
    if stockName = [] then .error (.emptyDividendStock (index + 1) market)
    else if pl < 0 then .ok ⟨txDate, stockName, .Dividend_Withdrawal, 1, |pl|⟩
    else .ok ⟨txDate, stockName, .Dividend, 1, |pl|⟩
  else if containsSub "COMM".data market then
    .ok ⟨txDate, "COMMISSION".data, .Commission, 1, |pl|⟩
  else if containsSub "CONS".data market then
    match parseConsTransaction market pl with
    | none => .error (.consParseError (index + 1) market)
    | some info =>
      .ok ⟨txDate, info.stock_name, if ttype = "WITH".data then .Buy else .Sell,
        (info.quantity : ℚ), info.unit_price⟩
  else if summary = "Share Dealing Commissions".data ∨
      (market = [] ∧ ttype = "WITH".data ∧ pl < 0) then
    .ok ⟨txDate, "COMMISSION".data, .Commission, 1, |pl|⟩
  else if pl < 0 ∧ toUpperStr summary = "DIVIDEND".data then
    .ok ⟨txDate, if pyStrip market ≠ [] then pyStrip market else "UNKNOWN_STOCK".data,
      .Dividend_Withdrawal, 1, |pl|⟩
  else .error (.unknownFormat (index + 1) market summary)

/-- `_transform_to_standard_format`, one row: either exactly one `StdTx` or a
row-indexed error.  `index` is the 0-based dataframe index; every error
carries `index + 1`. -/
def transformRow (index : Nat) (row : RawRow) : Except TransformError StdTx :=
  match row.transactionType with
  | none => .error (.nullField (index + 1) "Transaction type".data)
  | some ttypeRaw =>
  if ttypeRaw = [] then .error (.nullField (index + 1) "Transaction type".data) else
  match row.marketName with
  | none => .error (.nullField (index + 1) "MarketName".data)
  | some marketRaw =>
  if marketRaw = [] then .error (.nullField (index + 1) "MarketName".data) else
  match row.plAmount with
  | none => .error (.nullField (index + 1) "PL Amount".data)
  | some plRaw =>
  match row.textDate with
  | none => .error (.nullField (index + 1) "TextDate".data)
  | some dateRaw =>
  if dateRaw = [] then .error (.nullField (index + 1) "TextDate".data) else
  match defaultSummary row.summary ttypeRaw plRaw with
  | none => .error (.summaryDefaultFloatError (index + 1) plRaw)
  | some summary =>
  match pyFloat ((pyStrip plRaw).filter (fun c => ¬ (c = ',' ∨ c = '$'))) with
  | none => .error (.plNotNumeric (index + 1) plRaw)
  | some plScaled =>
  if ¬ (pyStrip ttypeRaw = "DEPO".data ∨ pyStrip ttypeRaw = "WITH".data) then
    .error (.invalidTransactionType (index + 1) (pyStrip ttypeRaw))
  else
    transformRowBody index summary (pyStrip ttypeRaw) (pyStrip marketRaw)
      (pyStrip dateRaw) plScaled.toRat

/-- Worker for `transformAll`, threading the 0-based row index. -/
def transformAllFrom : Nat → List RawRow → Except TransformError (List StdTx)
  | _, [] => .ok []
  | index, row :: rest =>
    match transformRow index row with
    | .error e => .error e
    | .ok t =>
      match transformAllFrom (index + 1) rest with
      | .error e => .error e
      | .ok ts => .ok (t :: ts)

/-- `_transform_to_standard_format` over the whole table: every row must
classify or the batch fails with the first row's error. -/
def transformAll (rows : List RawRow) : Except TransformError (List StdTx) :=
  transformAllFrom 0 rows

/-! ## Portfolio analyzer (`portfolio_analyzer.py`) -/

/-- A normalized-ledger row as the analyzer sees it: `_clean_data_types` has
turned dates into comparable calendar dates (modelled as `Nat`), upper-cased
symbols and title-cased actions. -/
structure Tx where
  date : Nat
  symbol : Str
  action : TxAction
  quantity : ℚ
  price : ℚ
deriving DecidableEq

/-- A ledger row before the constructor's `pd.to_numeric(..., errors='coerce')`
coercion: `none` in `quantity`/`price` is the null marker an unparseable value
coerces to. -/
structure NumRow where
  date : Nat
  symbol : Str
  action : TxAction
  quantity : Option ℚ
  price : Option ℚ
deriving DecidableEq

/-- One row surviving `PortfolioAnalyzer.__init__`'s
`dropna(subset=['quantity', 'price'])`. -/
def coerceRow (r : NumRow) : Option Tx :=
  match r.quantity, r.price with
  | some q, some p => some ⟨r.date, r.symbol, r.action, q, p⟩
  | _, _ => none

/-- `PortfolioAnalyzer.__init__`: coerce quantity and price to numeric and
drop every row where either is the null marker. -/
def analyzerInitTransactions (rows : List NumRow) : List Tx :=
  rows.filterMap coerceRow

def isSentinelSymbol (s : Str) : Bool :=
  s = "COMMISSION".data || s = "CASH_WITHDRAWAL".data || s = "CASH_DEPOSIT".data

/-- `get_unique_symbols`: unique non-sentinel symbols in first-occurrence
order (pandas `unique`). -/
def uniqueSymbols (df : List Tx) : List Str :=
  ((df.filter (fun t => ¬ isSentinelSymbol t.symbol)).map Tx.symbol).foldl
    (fun acc s => if s ∈ acc then acc else acc ++ [s]) []

def isBuySell (t : Tx) : Bool := t.action = .Buy || t.action = .Sell

/-- The per-symbol Buy/Sell slice every position computation starts from. -/
def symbolTxs (df : List Tx) (sym : Str) : List Tx :=
  df.filter (fun t => t.symbol = sym && isBuySell t)

/-- `sort_values('date')` inside `_calculate_realized_gains_losses` (the slice
is date-sorted; insertion sort realizes the same sorted-by-date result). -/
def sortByDate (l : List Tx) : List Tx :=
  List.insertionSort (fun a b => a.date ≤ b.date) l

/-- An open FIFO lot: an unconsumed (or partially consumed) Buy tranche. -/
structure Lot where
  quantity : ℚ
  price : ℚ
deriving DecidableEq

/-- The `while remaining_to_sell > 0 and bought_lots` loop of
`_calculate_realized_gains_losses`: consume lots from the queue head, return
the realized gain accumulated by this sale and the remaining queue. -/
def sellFromLots (salePrice : ℚ) : List Lot → ℚ → ℚ × List Lot
  | [], _ => (0, [])
  | lot :: rest, remaining =>
    if 0 < remaining then
      if lot.quantity ≤ remaining then
        let res := sellFromLots salePrice rest (remaining - lot.quantity)
        (lot.quantity * (salePrice - lot.price) + res.1, res.2)
      else
        (remaining * (salePrice - lot.price), ⟨lot.quantity - remaining, lot.price⟩ :: rest)
    else (0, lot :: rest)

/-- The per-symbol FIFO pass: a Buy appends a lot, a Sell consumes from the
head; returns the symbol's total realized gain. -/
def processSymbolTxs : List Tx → List Lot → ℚ
  | [], _ => 0
  | t :: ts, lots =>
    match t.action with
    | .Buy => processSymbolTxs ts (lots ++ [⟨t.quantity, t.price⟩])
    | .Sell =>
      let res := sellFromLots t.price lots t.quantity
      res.1 + processSymbolTxs ts res.2
    | _ => processSymbolTxs ts lots

/-- `_calculate_realized_gains_losses`: sum the FIFO realized gain over all
unique symbols' date-sorted Buy/Sell slices. -/
def calculateRealizedGainsLosses (df : List Tx) : ℚ :=
  ((uniqueSymbols df).map
    (fun sym => processSymbolTxs (sortByDate (symbolTxs df sym)) [])).sum

/-- One step of the `calculate_current_holdings_without_prices` running
average-cost state `(total_shares, total_cost)`.  The slice contains only Buy
and Sell rows, so the `else` branch is the Sell branch, and the proportional
cost reduction only happens when the post-sell share count is positive. -/
def holdingStep (acc : ℚ × ℚ) (t : Tx) : ℚ × ℚ :=
  match t.action with
  | .Buy => (acc.1 + t.quantity, acc.2 + t.quantity * t.price)
  | _ =>
    let shares := acc.1 - t.quantity
    if 0 < shares then
      let avgCost := if 0 < shares + t.quantity then acc.2 / (shares + t.quantity) else 0
      (shares, acc.2 - t.quantity * avgCost)
    else (shares, acc.2)

/-- A holdings-table row of `calculate_current_holdings_without_prices`
(current_price/current_value/gain_loss columns are placeholders copied from
the cost fields; allocation percentages are filled in afterwards). -/
structure Holding where
  symbol : Str
  quantity : ℚ
  avg_cost : ℚ
  total_invested : ℚ
  current_price : ℚ
  current_value : ℚ
  gain_loss : ℚ
  allocation_pct : ℚ
deriving DecidableEq

/-- `calculate_current_holdings_without_prices` before the allocation pass:
one row per unique symbol whose Buy/Sell slice is non-empty and whose
resulting share count is positive. -/
def holdingsWithoutPricesBase (df : List Tx) : List Holding :=
  (uniqueSymbols df).filterMap (fun sym =>
    let txs := symbolTxs df sym
    if txs.isEmpty then none
    else
      let sc := txs.foldl holdingStep (0, 0)
      if 0 < sc.1 then
        some ⟨sym, sc.1, sc.2 / sc.1, sc.2, sc.2 / sc.1, sc.2, 0, 0⟩
      else none)

/-- `calculate_current_holdings_without_prices` with the allocation-percentage
pass. -/
def holdingsWithoutPrices (df : List Tx) : List Holding :=
  let base := holdingsWithoutPricesBase df
  let total := (base.map Holding.current_value).sum
  if 0 < total then
    base.map (fun h => { h with allocation_pct := h.current_value / total * 100 })
  else base

/-- One signed row of the dividend history table. -/
structure DivRecord where
  date : Nat
  symbol : Str
  amount : ℚ
deriving DecidableEq

structure DividendSummary where
  total_dividends : ℚ
  dividend_count : Nat
  dividend_history : List DivRecord
deriving DecidableEq

def isDividendAction (t : Tx) : Bool :=
  t.action = .Dividend || t.action = .Dividend_Withdrawal

/-- `calculate_dividend_summary`: net total, count of `Dividend` rows only,
and the signed history sorted by date descending. -/
def calculateDividendSummary (df : List Tx) : DividendSummary :=
  let divTxs := df.filter isDividendAction
  if divTxs.isEmpty then ⟨0, 0, []⟩
  else
    let payments := ((divTxs.filter (fun t => t.action = .Dividend)).map Tx.price).sum
    let withdrawals :=
      ((divTxs.filter (fun t => t.action = .Dividend_Withdrawal)).map Tx.price).sum
    let history := divTxs.map (fun t =>
      (⟨t.date, t.symbol, if t.action = .Dividend then t.price else -t.price⟩ : DivRecord))
    ⟨payments - withdrawals, (divTxs.filter (fun t => t.action = .Dividend)).length,
      List.insertionSort (fun a b => b.date ≤ a.date) history⟩

/-! ## Concrete inputs used by the spec's worked examples -/

def exFifoPartial : List Tx :=
  [⟨1, "A".data, .Buy, 10, 100⟩, ⟨2, "A".data, .Buy, 5, 200⟩, ⟨3, "A".data, .Sell, 12, 150⟩]

def exFifoSimple : List Tx :=
  [⟨1, "A".data, .Buy, 10, 100⟩, ⟨2, "A".data, .Sell, 10, 150⟩]

def exAvgCost : List Tx :=
  [⟨1, "A".data, .Buy, 10, 100⟩, ⟨2, "A".data, .Sell, 4, 120⟩]

/-- Buy, full liquidation, then re-buy: the input on which the code's guarded
cost reduction departs from an unconditional proportional reduction. -/
def exLiquidateRebuy : List Tx :=
  [⟨1, "A".data, .Buy, 10, 100⟩, ⟨2, "A".data, .Sell, 10, 100⟩, ⟨3, "A".data, .Buy, 5, 200⟩]

def exDividends : List Tx :=
  [⟨1, "A".data, .Dividend, 1, 50⟩, ⟨2, "A".data, .Dividend_Withdrawal, 1, 20⟩]

/-- Modelled from the spec claim wording (C4): each Sell unconditionally
removes its quantity from shares and `quantity × (total_cost /
shares_before_sell)` from cost.  Used only to compare against the code's
`holdingStep`. -/
def holdingStepSpecClaim (acc : ℚ × ℚ) (t : Tx) : ℚ × ℚ :=
  match t.action with
  | .Buy => (acc.1 + t.quantity, acc.2 + t.quantity * t.price)
  | _ => (acc.1 - t.quantity, acc.2 - t.quantity * (acc.2 / acc.1))

def cardPaymentRow : RawRow :=
  ⟨some "2024-01-01".data, some "Cash In".data, some "Card payment GBP".data,
    some "DEPO".data, some "100".data⟩

def unknownFormatRow : RawRow :=
  ⟨some "2024-01-02".data, some "Bar".data, some "FOO".data, some "DEPO".data, some "5".data⟩

def numRowGood : NumRow := ⟨1, "A".data, .Buy, some 10, some 100⟩

def numRowBad : NumRow := ⟨2, "B".data, .Buy, none, some 5⟩

/-! ## Theorems -/

/-- Claim C1: FIFO realized gain.  In the per-symbol date-ordered pass, a Buy
appends a lot to the queue; a Sell consumes lots from the queue head — a head
lot with quantity ≤ the remaining sell quantity is wholly consumed (gain =
lot.quantity × (sale_price − lot.unit_cost)) and removed, otherwise the lot is
partially consumed (gain = remaining × (sale_price − lot.unit_cost)) and its
quantity reduced in place.  Buy 10@100, Buy 5@200, Sell 12@150 yields realized
gain 400, and Buy 10@100 then Sell 10@150 yields 500. -/
theorem C1_fifo_realized_gain :
    (∀ (t : Tx) (ts : List Tx) (lots : List Lot), t.action = .Buy →
      processSymbolTxs (t :: ts) lots = processSymbolTxs ts (lots ++ [⟨t.quantity, t.price⟩])) ∧
    (∀ (t : Tx) (ts : List Tx) (lots : List Lot), t.action = .Sell →
      processSymbolTxs (t :: ts) lots =
        (sellFromLots t.price lots t.quantity).1 +
          processSymbolTxs ts (sellFromLots t.price lots t.quantity).2) ∧
    (∀ (salePrice : ℚ) (lot : Lot) (rest : List Lot) (remaining : ℚ),
      0 < remaining → lot.quantity ≤ remaining →
      sellFromLots salePrice (lot :: rest) remaining =
        (lot.quantity * (salePrice - lot.price) +
            (sellFromLots salePrice rest (remaining - lot.quantity)).1,
          (sellFromLots salePrice rest (remaining - lot.quantity)).2)) ∧
    (∀ (salePrice : ℚ) (lot : Lot) (rest : List Lot) (remaining : ℚ),
      0 < remaining → remaining < lot.quantity →
      sellFromLots salePrice (lot :: rest) remaining =
        (remaining * (salePrice - lot.price), ⟨lot.quantity - remaining, lot.price⟩ :: rest)) ∧
    calculateRealizedGainsLosses exFifoPartial = 400 ∧
    calculateRealizedGainsLosses exFifoSimple = 500 := by
  refine ⟨?_, ?_, ?_, ?_, ?_, ?_⟩
  · intro t ts lots h
    simp only [processSymbolTxs, h]
  · intro t ts lots h
    simp only [processSymbolTxs, h]
  · intro salePrice lot rest remaining h1 h2
    simp only [sellFromLots, if_pos h1, if_pos h2]
  · intro salePrice lot rest remaining h1 h2
    simp only [sellFromLots, if_pos h1, if_neg (not_le.mpr h2)]
  · have h1 : uniqueSymbols exFifoPartial = ["A".data] := by decide
    have h2 : sortByDate (symbolTxs exFifoPartial "A".data) = exFifoPartial := by decide
    simp only [calculateRealizedGainsLosses, h1, h2, List.map_cons, List.map_nil,
      List.sum_cons, List.sum_nil]
    simp only [exFifoPartial, processSymbolTxs]
    norm_num [sellFromLots]
  · have h1 : uniqueSymbols exFifoSimple = ["A".data] := by decide
    have h2 : sortByDate (symbolTxs exFifoSimple "A".data) = exFifoSimple := by decide
    simp only [calculateRealizedGainsLosses, h1, h2, List.map_cons, List.map_nil,
      List.sum_cons, List.sum_nil]
    simp only [exFifoSimple, processSymbolTxs]
    norm_num [sellFromLots]

/-- Claim C1, witness: the universally quantified parts instantiated at
concrete lots and sales. -/
theorem C1_fifo_realized_gain_witness :
    processSymbolTxs [(⟨1, "A".data, .Buy, 10, 100⟩ : Tx)] [] =
      processSymbolTxs [] [⟨10, 100⟩] ∧
    sellFromLots 150 [⟨10, 100⟩] 12 =
      (10 * (150 - 100) + (sellFromLots 150 [] (12 - 10)).1,
        (sellFromLots 150 [] (12 - 10)).2) ∧
    sellFromLots 200 [⟨5, 210⟩, ⟨7, 90⟩] 2 = (2 * (200 - 210), [⟨5 - 2, 210⟩, ⟨7, 90⟩]) := by
  refine ⟨?_, ?_, ?_⟩
  · exact C1_fifo_realized_gain.1 ⟨1, "A".data, .Buy, 10, 100⟩ [] [] rfl
  · exact C1_fifo_realized_gain.2.2.1 150 ⟨10, 100⟩ [] 12 (by norm_num) (by norm_num)
  · exact C1_fifo_realized_gain.2.2.2.1 200 ⟨5, 210⟩ [⟨7, 90⟩] 2 (by norm_num) (by norm_num)

/-- Claim C5: overselling is not an error.  When a Sell's quantity exceeds the
total quantity held in open lots, the FIFO computation consumes all open lots,
accumulates no further gain or loss for the excess, raises nothing, and
continues with the subsequent transactions. -/
theorem C5_oversell_no_error :
    (∀ (salePrice : ℚ) (lots : List Lot) (remaining : ℚ),
      (∀ l ∈ lots, 0 < l.quantity) → (lots.map Lot.quantity).sum < remaining →
      sellFromLots salePrice lots remaining =
        ((lots.map (fun l => l.quantity * (salePrice - l.price))).sum, [])) ∧
    (∀ (t : Tx) (ts : List Tx) (lots : List Lot), t.action = .Sell →
      (∀ l ∈ lots, 0 < l.quantity) → (lots.map Lot.quantity).sum < t.quantity →
      processSymbolTxs (t :: ts) lots =
        (lots.map (fun l => l.quantity * (t.price - l.price))).sum + processSymbolTxs ts []) := by
  have main : ∀ (salePrice : ℚ) (lots : List Lot) (remaining : ℚ),
      (∀ l ∈ lots, 0 < l.quantity) → (lots.map Lot.quantity).sum < remaining →
      sellFromLots salePrice lots remaining =
        ((lots.map (fun l => l.quantity * (salePrice - l.price))).sum, []) := by
    intro salePrice lots
    induction lots with
    | nil =>
      intro remaining _ _
      simp [sellFromLots]
    | cons lot rest ih =>
      intro remaining hpos hsum
      simp only [List.map_cons, List.sum_cons] at hsum
      have hq : 0 < lot.quantity := hpos lot (List.mem_cons_self lot rest)
      have hrest : ∀ l ∈ rest, 0 < l.quantity := fun l hl => hpos l (List.mem_cons_of_mem _ hl)
      have hsumrest : 0 ≤ (rest.map Lot.quantity).sum := by
        apply List.sum_nonneg
        intro x hx
        obtain ⟨l, hl, rfl⟩ := List.mem_map.mp hx
        exact (hrest l hl).le
      have h1 : 0 < remaining := by linarith
      have h2 : lot.quantity ≤ remaining := by linarith
      simp only [sellFromLots, if_pos h1, if_pos h2]
      rw [ih (remaining - lot.quantity) hrest (by linarith)]
      simp [List.map_cons, List.sum_cons]
  refine ⟨main, ?_⟩
  intro t ts lots h hpos hsum
  simp only [processSymbolTxs, h]
  rw [main t.price lots t.quantity hpos hsum]

/-- Claim C5, witness: a sale of 12 against a single open lot of 10 consumes
the lot, realizes only the lot's gain, and processing continues. -/
theorem C5_oversell_no_error_witness :
    sellFromLots 150 [⟨10, 100⟩] 12 =
      (([(⟨10, 100⟩ : Lot)].map (fun l => l.quantity * (150 - l.price))).sum, []) ∧
    processSymbolTxs [(⟨1, "A".data, .Sell, 12, 150⟩ : Tx), ⟨2, "A".data, .Buy, 3, 80⟩]
        [⟨10, 100⟩] =
      (([(⟨10, 100⟩ : Lot)].map (fun l => l.quantity * (150 - l.price))).sum +
        processSymbolTxs [⟨2, "A".data, .Buy, 3, 80⟩] []) := by
  constructor
  · exact C5_oversell_no_error.1 150 [⟨10, 100⟩] 12
      (by rintro l hl; rcases List.mem_singleton.mp hl with rfl; norm_num)
      (by simp; norm_num)
  · exact C5_oversell_no_error.2 ⟨1, "A".data, .Sell, 12, 150⟩ [⟨2, "A".data, .Buy, 3, 80⟩]
      [⟨10, 100⟩] rfl
      (by rintro l hl; rcases List.mem_singleton.mp hl with rfl; norm_num)
      (by simp; norm_num)

/-- Claim C4, counterexample: the claim's unconditional Sell rule ("each Sell
removes quantity × (total_cost / shares_before_sell) from cost") fails on the
code.  A Sell that brings the share count to 0 leaves the accumulated cost
unchanged (`holdingStep (10, 1000)` on Sell 10 returns `(0, 1000)`, not the
claimed `(0, 0)`), so after Buy 10@100, Sell 10@100, Buy 5@200 the code
reports total_invested 2000 where the claim's rule yields 1000. -/
theorem C4_avg_cost_counterexample :
    holdingStep (10, 1000) ⟨2, "A".data, .Sell, 10, 100⟩ = (0, 1000) ∧
    holdingStepSpecClaim (10, 1000) ⟨2, "A".data, .Sell, 10, 100⟩ = (0, 0) ∧
    exLiquidateRebuy.foldl holdingStep (0, 0) = (5, 2000) ∧
    exLiquidateRebuy.foldl holdingStepSpecClaim (0, 0) = (5, 1000) ∧
    (holdingsWithoutPrices exLiquidateRebuy).map Holding.total_invested = [2000] := by
  refine ⟨?_, ?_, ?_, ?_, ?_⟩
  · norm_num [holdingStep]
  · norm_num [holdingStepSpecClaim]
  · norm_num [exLiquidateRebuy, holdingStep]
  · norm_num [exLiquidateRebuy, holdingStepSpecClaim]
  · have h1 : uniqueSymbols exLiquidateRebuy = ["A".data] := by decide
    have h2 : symbolTxs exLiquidateRebuy "A".data = exLiquidateRebuy := by decide
    simp only [holdingsWithoutPrices, holdingsWithoutPricesBase, h1, h2, List.filterMap_cons,
      List.filterMap_nil]
    norm_num [exLiquidateRebuy, holdingStep]

/-- Claim C4, amended: each Buy adds quantity×price to total cost and quantity
to shares; each Sell removes its quantity from shares and — only when the
post-sell share count is positive — removes quantity × (total_cost /
shares_before_sell) from cost, leaving cost unchanged otherwise; a symbol
whose resulting quantity ≤ 0 is absent from holdings; Buy 10@100 then Sell
4@120 yields quantity 6, avg_cost 100, total_invested 600. -/
theorem C4_avg_cost_holdings :
    (∀ (acc : ℚ × ℚ) (t : Tx), t.action = .Buy →
      holdingStep acc t = (acc.1 + t.quantity, acc.2 + t.quantity * t.price)) ∧
    (∀ (acc : ℚ × ℚ) (t : Tx), t.action = .Sell → 0 < acc.1 - t.quantity → 0 < acc.1 →
      holdingStep acc t = (acc.1 - t.quantity, acc.2 - t.quantity * (acc.2 / acc.1))) ∧
    (∀ (acc : ℚ × ℚ) (t : Tx), t.action = .Sell → acc.1 - t.quantity ≤ 0 →
      holdingStep acc t = (acc.1 - t.quantity, acc.2)) ∧
    (∀ (df : List Tx) (h : Holding), h ∈ holdingsWithoutPrices df → 0 < h.quantity) ∧
    holdingsWithoutPrices exAvgCost = [⟨"A".data, 6, 100, 600, 100, 600, 0, 100⟩] := by
  refine ⟨?_, ?_, ?_, ?_, ?_⟩
  · intro acc t h
    simp only [holdingStep, h]
  · intro acc t h h2 h3
    simp only [holdingStep, h, if_pos h2, sub_add_cancel, if_pos h3]
  · intro acc t h h2
    simp only [holdingStep, h, if_neg (not_lt.mpr h2)]
  · intro df h hmem
    have base : ∀ g ∈ holdingsWithoutPricesBase df, 0 < g.quantity := by
      intro g hg
      obtain ⟨sym, _, hsome⟩ := List.mem_filterMap.mp hg
      by_cases hempty : (symbolTxs df sym).isEmpty
      · simp [hempty] at hsome
      · simp only [hempty, if_false, Bool.false_eq_true] at hsome
        by_cases hpos : 0 < ((symbolTxs df sym).foldl holdingStep (0, 0)).1
        · rw [if_pos hpos] at hsome
          cases hsome
          exact hpos
        · rw [if_neg hpos] at hsome
          cases hsome
    simp only [holdingsWithoutPrices] at hmem
    by_cases htot : 0 < ((holdingsWithoutPricesBase df).map Holding.current_value).sum
    · rw [if_pos htot] at hmem
      obtain ⟨g, hg, rfl⟩ := List.mem_map.mp hmem
      exact base g hg
    · rw [if_neg htot] at hmem
      exact base h hmem
  · have h1 : uniqueSymbols exAvgCost = ["A".data] := by decide
    have h2 : symbolTxs exAvgCost "A".data = exAvgCost := by decide
    simp only [holdingsWithoutPrices, holdingsWithoutPricesBase, h1, h2, List.filterMap_cons,
      List.filterMap_nil]
    norm_num [exAvgCost, holdingStep]

/-- Claim C4, witness: the step rules instantiated at concrete states, and the
holding produced by the worked example has positive quantity. -/
theorem C4_avg_cost_holdings_witness :
    holdingStep (10, 1000) ⟨1, "A".data, .Buy, 5, 200⟩ = (10 + 5, 1000 + 5 * 200) ∧
    holdingStep (10, 1000) ⟨2, "A".data, .Sell, 4, 120⟩ = (10 - 4, 1000 - 4 * (1000 / 10)) ∧
    holdingStep (10, 1000) ⟨3, "A".data, .Sell, 10, 100⟩ = (10 - 10, 1000) ∧
    0 < (⟨"A".data, 6, 100, 600, 100, 600, 0, 100⟩ : Holding).quantity := by
  refine ⟨?_, ?_, ?_, ?_⟩
  · exact C4_avg_cost_holdings.1 (10, 1000) ⟨1, "A".data, .Buy, 5, 200⟩ rfl
  · exact C4_avg_cost_holdings.2.1 (10, 1000) ⟨2, "A".data, .Sell, 4, 120⟩ rfl
      (by norm_num) (by norm_num)
  · exact C4_avg_cost_holdings.2.2.1 (10, 1000) ⟨3, "A".data, .Sell, 10, 100⟩ rfl (by norm_num)
  · exact C4_avg_cost_holdings.2.2.2.1 exAvgCost _
      (by rw [C4_avg_cost_holdings.2.2.2.2]; exact List.mem_singleton.mpr rfl)

/-- Filtering an already-dividend-filtered slice by a predicate that implies
membership in the slice is the same as filtering the whole ledger. -/
theorem filter_isDividend_filter (df : List Tx) (p : Tx → Bool)
    (hp : ∀ t, p t = true → isDividendAction t = true) :
    (df.filter isDividendAction).filter p = df.filter p := by
  induction df with
  | nil => rfl
  | cons t ts ih =>
    by_cases hpt : p t = true
    · have hdt : isDividendAction t = true := hp t hpt
      simp [List.filter_cons, hpt, hdt, ih]
    · cases hdt : isDividendAction t
      · simp [List.filter_cons, hdt, hpt, ih]
      · simp [List.filter_cons, hdt, hpt, ih]

/-- Claim C6: dividend aggregation.  `total_dividends` is the sum of price over
Dividend rows minus the sum over Dividend_Withdrawal rows, `dividend_count`
counts only Dividend rows, and `dividend_history` carries signed amounts
(positive for Dividend, negated for Dividend_Withdrawal) sorted by date
descending; one Dividend of 50 and one Dividend_Withdrawal of 20 give
total_dividends 30 and dividend_count 1. -/
theorem C6_dividend_summary :
    (∀ df : List Tx, (calculateDividendSummary df).total_dividends =
      ((df.filter (fun t => t.action = .Dividend)).map Tx.price).sum -
        ((df.filter (fun t => t.action = .Dividend_Withdrawal)).map Tx.price).sum) ∧
    (∀ df : List Tx, (calculateDividendSummary df).dividend_count =
      (df.filter (fun t => t.action = .Dividend)).length) ∧
    (∀ df : List Tx, List.Sorted (fun a b : DivRecord => b.date ≤ a.date)
      (calculateDividendSummary df).dividend_history) ∧
    (∀ df : List Tx, List.Perm (calculateDividendSummary df).dividend_history
      ((df.filter isDividendAction).map (fun t =>
        (⟨t.date, t.symbol, if t.action = .Dividend then t.price else -t.price⟩ : DivRecord)))) ∧
    calculateDividendSummary exDividends =
      ⟨30, 1, [⟨2, "A".data, -20⟩, ⟨1, "A".data, 50⟩]⟩ := by
  have hpD : ∀ t : Tx, (decide (t.action = TxAction.Dividend)) = true →
      isDividendAction t = true := by
    intro t ht
    simp only [decide_eq_true_eq] at ht
    simp [isDividendAction, ht]
  have hpDW : ∀ t : Tx, (decide (t.action = TxAction.Dividend_Withdrawal)) = true →
      isDividendAction t = true := by
    intro t ht
    simp only [decide_eq_true_eq] at ht
    simp [isDividendAction, ht]
  haveI instTot : IsTotal DivRecord (fun a b => b.date ≤ a.date) :=
    ⟨fun a b => le_total b.date a.date⟩
  haveI instTrans : IsTrans DivRecord (fun a b => b.date ≤ a.date) :=
    ⟨fun _ _ _ hab hbc => le_trans hbc hab⟩
  refine ⟨?_, ?_, ?_, ?_, ?_⟩
  · intro df
    by_cases h : (df.filter isDividendAction).isEmpty
    · have hnil : df.filter isDividendAction = [] := List.isEmpty_iff.mp h
      have hD : df.filter (fun t => t.action = TxAction.Dividend) = [] := by
        rw [← filter_isDividend_filter df _ hpD, hnil]
        rfl
      have hDW : df.filter (fun t => t.action = TxAction.Dividend_Withdrawal) = [] := by
        rw [← filter_isDividend_filter df _ hpDW, hnil]
        rfl
      simp [calculateDividendSummary, h, hD, hDW]
    · simp only [calculateDividendSummary, h, if_false, Bool.false_eq_true]
      rw [filter_isDividend_filter df _ hpD, filter_isDividend_filter df _ hpDW]
  · intro df
    by_cases h : (df.filter isDividendAction).isEmpty
    · have hnil : df.filter isDividendAction = [] := List.isEmpty_iff.mp h
      have hD : df.filter (fun t => t.action = TxAction.Dividend) = [] := by
        rw [← filter_isDividend_filter df _ hpD, hnil]
        rfl
      simp [calculateDividendSummary, h, hD]
    · simp only [calculateDividendSummary, h, if_false, Bool.false_eq_true]
      rw [filter_isDividend_filter df _ hpD]
  · intro df
    by_cases h : (df.filter isDividendAction).isEmpty
    · simp [calculateDividendSummary, h]
    · simp only [calculateDividendSummary, h, if_false, Bool.false_eq_true]
      exact List.sorted_insertionSort _ _
  · intro df
    by_cases h : (df.filter isDividendAction).isEmpty
    · have hnil : df.filter isDividendAction = [] := List.isEmpty_iff.mp h
      simp [calculateDividendSummary, h, hnil]
    · simp only [calculateDividendSummary, h, if_false, Bool.false_eq_true]
      exact List.perm_insertionSort _ _
  · have hdiv : exDividends.filter isDividendAction = exDividends := by decide
    have hD : exDividends.filter (fun t => t.action = TxAction.Dividend) =
        [⟨1, "A".data, .Dividend, 1, 50⟩] := by decide
    have hDW : exDividends.filter (fun t => t.action = TxAction.Dividend_Withdrawal) =
        [⟨2, "A".data, .Dividend_Withdrawal, 1, 20⟩] := by decide
    simp only [calculateDividendSummary, hdiv, hD, hDW]
    norm_num [exDividends, List.insertionSort, List.orderedInsert]
    decide

/-- Claim C10: the constructor coerces quantity and price to numeric and drops
every row where either coercion yields the null marker, so all subsequent
computations operate only on rows whose quantity and price are numeric; such
rows are silently excluded rather than reported. -/
theorem C10_init_coercion_drops_nulls :
    (∀ rows : List NumRow, analyzerInitTransactions rows =
      (rows.filter (fun r => r.quantity.isSome && r.price.isSome)).map
        (fun r => ⟨r.date, r.symbol, r.action, r.quantity.getD 0, r.price.getD 0⟩)) ∧
    (∀ r : NumRow, r.quantity = none ∨ r.price = none → coerceRow r = none) ∧
    (∀ (rows : List NumRow) (t : Tx), t ∈ analyzerInitTransactions rows →
      ∃ r ∈ rows, r.quantity = some t.quantity ∧ r.price = some t.price) := by
  refine ⟨?_, ?_, ?_⟩
  · intro rows
    induction rows with
    | nil => rfl
    | cons r rest ih =>
      cases hq : r.quantity with
      | none =>
        simp [analyzerInitTransactions, coerceRow, List.filter_cons, hq] at ih ⊢
        exact ih
      | some q =>
        cases hp : r.price with
        | none =>
          simp [analyzerInitTransactions, coerceRow, List.filter_cons, hq, hp] at ih ⊢
          exact ih
        | some p =>
          simp [analyzerInitTransactions, coerceRow, List.filter_cons, hq, hp] at ih ⊢
          exact ih
  · intro r hr
    rcases hr with h | h <;> simp [coerceRow, h]
  · intro rows t ht
    obtain ⟨r, hr, hcoerce⟩ := List.mem_filterMap.mp ht
    refine ⟨r, hr, ?_⟩
    cases hq : r.quantity with
    | none => simp [coerceRow, hq] at hcoerce
    | some q =>
      cases hp : r.price with
      | none => simp [coerceRow, hq, hp] at hcoerce
      | some p =>
        simp only [coerceRow, hq, hp, Option.some.injEq] at hcoerce
        subst hcoerce
        exact ⟨rfl, rfl⟩

/-- Claim C10, witness: a row with a null quantity is dropped, and the
surviving transaction of a two-row table comes from the fully numeric row. -/
theorem C10_init_coercion_drops_nulls_witness :
    coerceRow numRowBad = none ∧
    (∃ r ∈ [numRowGood, numRowBad],
      r.quantity = some ((⟨1, "A".data, .Buy, 10, 100⟩ : Tx)).quantity ∧
      r.price = some ((⟨1, "A".data, .Buy, 10, 100⟩ : Tx)).price) := by
  constructor
  · exact C10_init_coercion_drops_nulls.2.1 numRowBad (Or.inl rfl)
  · exact C10_init_coercion_drops_nulls.2.2 [numRowGood, numRowBad]
      ⟨1, "A".data, .Buy, 10, 100⟩ (by decide)

/-- Claim C9: normalizer determinism — two runs of the normalizer on equal raw
tables produce equal Transaction tables.  The embedding of
`_transform_to_standard_format` is a pure function of the raw rows: no state
outside its arguments influences its output. -/
theorem C9_normalizer_deterministic :
    ∀ rows1 rows2 : List RawRow, rows1 = rows2 → transformAll rows1 = transformAll rows2 := by
  intro rows1 rows2 h
  rw [h]

/-- Claim C9, witness: determinism instantiated on a concrete two-row table. -/
theorem C9_normalizer_deterministic_witness :
    transformAll [cardPaymentRow, unknownFormatRow] =
      transformAll [cardPaymentRow, unknownFormatRow] :=
  C9_normalizer_deterministic [cardPaymentRow, unknownFormatRow]
    [cardPaymentRow, unknownFormatRow] rfl

/-- Claim C2: CONS price scaling.  For every successfully parsed CONS
MarketName the price token is parsed as a float and divided by 100
unconditionally; "X CONS 127@229 ref" with PL Amount −290.83 yields
quantity 127, unit_price 2.29 and stock name "X", and
"Y CONS 143@527.5 ref" with PL Amount −754.325 yields unit_price 5.275. -/
theorem C2_cons_price_scaling :
    (∀ (mn s : Str) (q : Int) (p : ℚ), parseConsCore mn = some (s, q, p) →
      ∃ flds sd, consFields mn = some flds ∧ pyFloat (pyStrip flds.2.2) = some sd ∧
        p = sd.toRat / 100) ∧
    parseConsTransaction "X CONS 127@229 ref".data (-29083 / 100) =
      some ⟨"X".data, 127, 229 / 100, false⟩ ∧
    parseConsTransaction "Y CONS 143@527.5 ref".data (-754325 / 1000) =
      some ⟨"Y".data, 143, 5275 / 1000, false⟩ := by
  refine ⟨?_, ?_, ?_⟩
  · intro mn s q p h
    simp only [parseConsCore] at h
    split at h
    · simp at h
    · rename_i a b c hflds
      split at h
      · simp at h
      · rename_i qv hq
        split at h
        · simp at h
        · rename_i hq0
          split at h
          · simp at h
          · rename_i sd hp
            split at h
            · simp at h
            · simp only [Option.some.injEq, Prod.mk.injEq] at h
              obtain ⟨rfl, rfl, rfl⟩ := h
              exact ⟨(a, b, c), sd, hflds, hp, rfl⟩
  · have h1 : consFields "X CONS 127@229 ref".data
        = some ("X".data, "127".data, "229".data) := by decide
    have h2 : pyInt "127".data = some 127 := by decide
    have h3 : pyFloat (pyStrip "229".data) = some (229, 0) := by decide
    simp only [parseConsTransaction, parseConsCore, h1, h2, h3]
    norm_num [ScaledDec.toRat]
    rw [abs_of_nonneg (show (0 : ℚ) ≤ 29083 / 100 by norm_num), sub_self, abs_zero]
    norm_num
  · have h1 : consFields "Y CONS 143@527.5 ref".data
        = some ("Y".data, "143".data, "527.5".data) := by decide
    have h2 : pyInt "143".data = some 143 := by decide
    have h3 : pyFloat (pyStrip "527.5".data) = some (5275, 1) := by decide
    simp only [parseConsTransaction, parseConsCore, h1, h2, h3]
    norm_num [ScaledDec.toRat]
    rw [abs_of_nonneg (show (0 : ℚ) ≤ 30173 / 40 by norm_num), sub_self, abs_zero]
    norm_num

/-- Claim C2, witness: the universal scaling statement instantiated at the
first worked example. -/
theorem C2_cons_price_scaling_witness :
    ∃ flds sd, consFields "X CONS 127@229 ref".data = some flds ∧
      pyFloat (pyStrip flds.2.2) = some sd ∧ (229 / 100 : ℚ) = sd.toRat / 100 := by
  apply C2_cons_price_scaling.1 "X CONS 127@229 ref".data "X".data 127 (229 / 100)
  have h1 : consFields "X CONS 127@229 ref".data
      = some ("X".data, "127".data, "229".data) := by decide
  have h2 : pyInt "127".data = some 127 := by decide
  have h3 : pyFloat (pyStrip "229".data) = some (229, 0) := by decide
  simp only [parseConsCore, h1, h2, h3]
  norm_num [ScaledDec.toRat]

/-- Claim C3: CONS reconciliation.  For every CONS row that passes the core
parse, a mismatch |quantity × unit_price − |PL Amount|| > 0.02 does not fail:
the parser returns unit_price recomputed as |PL Amount| / quantity with the
non-fatal warning flag set; within tolerance it returns the scaled parsed
price unchanged; the reconciliation branch always returns a value. -/
theorem C3_cons_reconciliation :
    ∀ (mn : Str) (pl : ℚ) (s : Str) (q : Int) (p : ℚ), parseConsCore mn = some (s, q, p) →
      (parseConsTransaction mn pl).isSome = true ∧
      (abs ((q : ℚ) * p - abs pl) > 2 / 100 →
        parseConsTransaction mn pl = some ⟨s, q, abs pl / (q : ℚ), true⟩) ∧
      (abs ((q : ℚ) * p - abs pl) ≤ 2 / 100 →
        parseConsTransaction mn pl = some ⟨s, q, p, false⟩) := by
  intro mn pl s q p h
  refine ⟨?_, ?_, ?_⟩
  · simp only [parseConsTransaction, h]
    split <;> simp
  · intro h2
    simp only [parseConsTransaction, h]
    split
    · rfl
    · rename_i hc
      exact absurd h2 hc
  · intro h3
    simp only [parseConsTransaction, h]
    split
    · rename_i hc
      exact absurd hc (not_lt.mpr h3)
    · rfl

/-- Claim C3, witness: "X CONS 2@100 r" parses to 2@1.00 but PL Amount −3
mismatches (gap 1 > 0.02), so the parser returns 3/2 with the warning flag. -/
theorem C3_cons_reconciliation_witness :
    (parseConsTransaction "X CONS 2@100 r".data (-3)).isSome = true ∧
    parseConsTransaction "X CONS 2@100 r".data (-3) =
      some ⟨"X".data, 2, abs (-3 : ℚ) / ((2 : Int) : ℚ), true⟩ := by
  have hcore : parseConsCore "X CONS 2@100 r".data = some ("X".data, 2, 1) := by
    have h1 : consFields "X CONS 2@100 r".data
        = some ("X".data, "2".data, "100".data) := by decide
    have h2 : pyInt "2".data = some 2 := by decide
    have h3 : pyFloat (pyStrip "100".data) = some (100, 0) := by decide
    simp only [parseConsCore, h1, h2, h3]
    norm_num [ScaledDec.toRat]
  have hgap : abs (((2 : Int) : ℚ) * 1 - abs (-3 : ℚ)) > 2 / 100 := by
    norm_num
  exact ⟨(C3_cons_reconciliation "X CONS 2@100 r".data (-3) "X".data 2 1 hcore).1,
    (C3_cons_reconciliation "X CONS 2@100 r".data (-3) "X".data 2 1 hcore).2.1 hgap⟩

/-- Every error the rule chain raises carries the 1-based row index. -/
theorem transformRowBody_error_rowIndex (idx : Nat) (summary ttype market txDate : Str)
    (pl : ℚ) (e : TransformError)
    (h : transformRowBody idx summary ttype market txDate pl = .error e) :
    e.rowIndex = idx + 1 := by
  simp only [transformRowBody] at h
  iterate 12 (all_goals try split at h)
  all_goals
    first
      | exact Except.noConfusion h
      | (injection h with h2; subst h2; rfl)

/-- Every error `transformRow` raises carries the 1-based row index. -/
theorem transformRow_error_rowIndex (idx : Nat) (row : RawRow) (e : TransformError)
    (h : transformRow idx row = .error e) : e.rowIndex = idx + 1 := by
  simp only [transformRow] at h
  iterate 12 (all_goals try split at h)
  all_goals
    first
      | exact Except.noConfusion h
      | (injection h with h2; subst h2; rfl)
      | exact transformRowBody_error_rowIndex _ _ _ _ _ _ _ h

/-- A successful batch produces exactly one transaction per raw row. -/
theorem transformAllFrom_ok_length :
    ∀ (rows : List RawRow) (idx : Nat) (ts : List StdTx),
      transformAllFrom idx rows = .ok ts → ts.length = rows.length := by
  intro rows
  induction rows with
  | nil =>
    intro idx ts h
    simp only [transformAllFrom] at h
    injection h with h2
    subst h2
    rfl
  | cons r rest ih =>
    intro idx ts h
    simp only [transformAllFrom] at h
    split at h
    · exact Except.noConfusion h
    · split at h
      · exact Except.noConfusion h
      · rename_i ts' hts
        injection h with h2
        subst h2
        simp [List.length_cons, ih _ _ hts]

/-- Claim C7: classification totality and error granularity.  Every raw row
either yields exactly one transaction or an error carrying the 1-based row
index; a successful batch has exactly one output per input row (no silent
drop); a failing row aborts the batch; and a row matching none of the ordered
rules yields the unknown-format error carrying its MarketName and Summary. -/
theorem C7_classification_totality :
    (∀ (idx : Nat) (row : RawRow),
      (∃ t, transformRow idx row = .ok t) ∨
      (∃ e, transformRow idx row = .error e ∧ e.rowIndex = idx + 1)) ∧
    (∀ (rows : List RawRow) (ts : List StdTx), transformAll rows = .ok ts →
      ts.length = rows.length) ∧
    (∀ (idx : Nat) (row : RawRow) (rest : List RawRow) (e : TransformError),
      transformRow idx row = .error e → transformAllFrom idx (row :: rest) = .error e) ∧
    (∀ (idx : Nat) (summary ttype market txDate : Str) (pl : ℚ),
      containsSub "Card payment".data market = false →
      containsSub "Returned to card".data market = false →
      containsSub "DIVIDEND".data market = false →
      containsSub "COMM".data market = false →
      containsSub "CONS".data market = false →
      summary ≠ "Share Dealing Commissions".data →
      ¬ (market = [] ∧ ttype = "WITH".data ∧ pl < 0) →
      ¬ (pl < 0 ∧ toUpperStr summary = "DIVIDEND".data) →
      transformRowBody idx summary ttype market txDate pl =
        .error (.unknownFormat (idx + 1) market summary)) := by
  refine ⟨?_, ?_, ?_, ?_⟩
  · intro idx row
    cases hcase : transformRow idx row with
    | ok t => exact Or.inl ⟨t, rfl⟩
    | error e => exact Or.inr ⟨e, rfl, transformRow_error_rowIndex idx row e hcase⟩
  · intro rows ts h
    exact transformAllFrom_ok_length rows 0 ts h
  · intro idx row rest e h
    simp only [transformAllFrom, h]
  · intro idx summary ttype market txDate pl h1 h2 h3 h4 h5 h6 h7 h8
    simp only [transformRowBody, h1, h2, h3, h4, h5, Bool.false_eq_true, if_false,
      if_neg (show ¬ (summary = "Share Dealing Commissions".data ∨
        (market = [] ∧ ttype = "WITH".data ∧ pl < 0)) by
          rintro (hc | hc)
          · exact h6 hc
          · exact h7 hc),
      if_neg h8]

/-- Claim C7, witness: a Card-payment row classifies, a one-row batch keeps
its length, and a row matching no rule produces the row-indexed
unknown-format error and aborts a two-row batch. -/
theorem C7_classification_totality_witness :
    ((∃ t, transformRow 0 cardPaymentRow = .ok t) ∨
      (∃ e, transformRow 0 cardPaymentRow = .error e ∧ e.rowIndex = 0 + 1)) ∧
    transformAll [cardPaymentRow] =
      .ok [⟨"2024-01-01".data, "CASH_DEPOSIT".data, .Cash_In, 1, 100⟩] ∧
    ([(⟨"2024-01-01".data, "CASH_DEPOSIT".data, .Cash_In, 1, 100⟩ : StdTx)]).length =
      [cardPaymentRow].length ∧
    transformRow 0 unknownFormatRow = .error (.unknownFormat 1 "FOO".data "Bar".data) ∧
    transformAllFrom 0 [unknownFormatRow, cardPaymentRow] =
      .error (.unknownFormat 1 "FOO".data "Bar".data) := by
  have hds : defaultSummary (some "Cash In".data) "DEPO".data "100".data
      = some "Cash In".data := by decide
  have hpl : pyFloat ((pyStrip "100".data).filter (fun c => ¬ (c = ',' ∨ c = '$')))
      = some (100, 0) := by decide
  have hstt : pyStrip "DEPO".data = "DEPO".data := by decide
  have hsmkt : pyStrip "Card payment GBP".data = "Card payment GBP".data := by decide
  have hsdt : pyStrip "2024-01-01".data = "2024-01-01".data := by decide
  have hcp : containsSub "Card payment".data "Card payment GBP".data = true := by decide
  have e1 : transformRow 0 cardPaymentRow =
      .ok ⟨"2024-01-01".data, "CASH_DEPOSIT".data, .Cash_In, 1, 100⟩ := by
    simp only [transformRow, cardPaymentRow, hds, hpl]
    rw [if_neg (show ¬ (("DEPO".data : Str) = []) by decide),
      if_neg (show ¬ (("Card payment GBP".data : Str) = []) by decide),
      if_neg (show ¬ (("2024-01-01".data : Str) = []) by decide),
      if_neg (not_not_intro (Or.inl hstt))]
    simp only [transformRowBody, hsmkt, hsdt, hcp, if_true]
    norm_num [ScaledDec.toRat]
  have hds2 : defaultSummary (some "Bar".data) "DEPO".data "5".data
      = some "Bar".data := by decide
  have hpl2 : pyFloat ((pyStrip "5".data).filter (fun c => ¬ (c = ',' ∨ c = '$')))
      = some (5, 0) := by decide
  have hsmkt2 : pyStrip "FOO".data = "FOO".data := by decide
  have hsdt2 : pyStrip "2024-01-02".data = "2024-01-02".data := by decide
  have e2 : transformRow 0 unknownFormatRow =
      .error (.unknownFormat 1 "FOO".data "Bar".data) := by
    have hbody := C7_classification_totality.2.2.2 0 "Bar".data "DEPO".data "FOO".data
      "2024-01-02".data (ScaledDec.toRat (5, 0))
      (by decide) (by decide) (by decide) (by decide) (by decide) (by decide)
      (by rintro ⟨hc, -⟩; exact absurd hc (by decide))
      (by rintro ⟨-, hc⟩; exact absurd hc (by decide))
    simp only [transformRow, unknownFormatRow, hds2, hpl2]
    rw [if_neg (show ¬ (("DEPO".data : Str) = []) by decide),
      if_neg (show ¬ (("FOO".data : Str) = []) by decide),
      if_neg (show ¬ (("2024-01-02".data : Str) = []) by decide),
      if_neg (not_not_intro (Or.inl hstt))]
    rw [hstt, hsmkt2, hsdt2]
    exact hbody
  refine ⟨C7_classification_totality.1 0 cardPaymentRow, ?_, ?_, e2, ?_⟩
  · simp only [transformAll, transformAllFrom, e1]
  · exact C7_classification_totality.2.1 [cardPaymentRow]
      [⟨"2024-01-01".data, "CASH_DEPOSIT".data, .Cash_In, 1, 100⟩]
      (by simp only [transformAll, transformAllFrom, e1])
  · exact C7_classification_totality.2.2.1 0 unknownFormatRow [cardPaymentRow]
      (.unknownFormat 1 "FOO".data "Bar".data) e2
